import Mathlib

/-!
# Verification of the SoCal campsite tracker

Shallow embedding of the campsite-availability tracker (parks registry,
data model, rate limiter, reservation content parsing, alert-rule
processing, data-store client, calendar dashboard, direct fallback
scraper), with theorems settling the specification claims.

Dates are modelled as proleptic-Gregorian day ordinals (the semantics of
CPython `datetime.date.toordinal`, where ordinal 1 is 0001-01-01, a
Monday), and prices as rationals.
-/

set_option maxRecDepth 10000

/-! ## Calendar foundations (CPython `datetime.date` / `calendar.monthrange`) -/

/-- Gregorian leap-year test, as in CPython `calendar.isleap`. -/
def isLeap (y : Nat) : Bool := y % 4 == 0 && (y % 100 != 0 || y % 400 == 0)

/-- Length of a month, as returned by `calendar.monthrange(year, month)[1]`. -/
def daysInMonth (y m : Nat) : Nat :=
  if m = 2 then (if isLeap y then 29 else 28)
  else if m = 4 ∨ m = 6 ∨ m = 9 ∨ m = 11 then 30
  else 31

/-- Number of days before January 1 of year `y` (CPython `_days_before_year`). -/
def daysBeforeYear (y : Nat) : Nat :=
  (y - 1) * 365 + (y - 1) / 4 - (y - 1) / 100 + (y - 1) / 400

/-- Number of days in year `y` before the first of month `m`. -/
def daysBeforeMonth (y m : Nat) : Nat :=
  ((List.range (m - 1)).map (fun i => daysInMonth y (i + 1))).sum

/-- `datetime.date(y, m, d).toordinal()`. -/
def dateOrdinal (y m d : Nat) : Nat := daysBeforeYear y + daysBeforeMonth y m + d

/-- `datetime.date.fromordinal(o).weekday()`: 0 = Monday, …, 6 = Sunday. -/
def pyWeekday (o : Nat) : Nat := (o + 6) % 7

/-- A calendar date as a (year, month, day) triple, as CPython `datetime.date`. -/
structure PyDate where
  year : Nat
  month : Nat
  day : Nat
deriving DecidableEq, Repr

def PyDate.ordinal (t : PyDate) : Nat := dateOrdinal t.year t.month t.day

def PyDate.weekday (t : PyDate) : Nat := pyWeekday t.ordinal

/-- The invariant every constructible CPython `date` satisfies. -/
def PyDate.Valid (t : PyDate) : Prop :=
  1 ≤ t.year ∧ 1 ≤ t.month ∧ t.month ≤ 12 ∧ 1 ≤ t.day ∧ t.day ≤ daysInMonth t.year t.month

instance (t : PyDate) : Decidable t.Valid := by unfold PyDate.Valid; infer_instance

/-- `t + timedelta(days=1)` on date triples. -/
def PyDate.succ (t : PyDate) : PyDate :=
  if t.day < daysInMonth t.year t.month then ⟨t.year, t.month, t.day + 1⟩
  else if t.month < 12 then ⟨t.year, t.month + 1, 1⟩
  else ⟨t.year + 1, 1, 1⟩

/-! ## Data model (src/config/parks.py, src/database/models.py)

String-valued enums carry their `.value`; `use_enum_values = True` means the
models hold these raw values, so string interpolation of a park or status
field yields the value text. Check-in dates are day ordinals; when the code
interpolates a date into a key string we use the ordinal's decimal text,
an injective stand-in for the ISO text `str(date)` produces. -/

inductive ParkEnum where
  | joshua_tree
  | carlsbad
  | oceanside
deriving DecidableEq, Repr

def ParkEnum.value : ParkEnum → String
  | .joshua_tree => "joshua_tree"
  | .carlsbad => "carlsbad"
  | .oceanside => "oceanside"

inductive SiteTypeEnum where
  | tent
  | rv
  | cabin
  | group
  | day_use
deriving DecidableEq, Repr

inductive AvailabilityStatus where
  | available
  | booked
  | closed
  | maintenance
  | unknown
deriving DecidableEq, Repr

inductive NotificationStatus where
  | pending
  | sent
  | failed
  | skipped
deriving DecidableEq, Repr

/-- `CampsiteAvailability` model fields (models.py). There is no
`check_out_date` or `booking_url` field: pydantic's default config ignores
unknown constructor keyword arguments. `scraped_at` is a timestamp ordinal. -/
structure CampsiteAvailability where
  park : ParkEnum
  site_id : String
  site_name : String
  site_type : SiteTypeEnum
  check_in_date : Nat
  status : AvailabilityStatus
  price : Option ℚ := none
  max_occupancy : Option Nat := none
  amenities : List String := []
  scraped_at : Nat := 0
  url : Option String := none
deriving DecidableEq, Repr

/-- The `CampsiteAvailability` validators: check-in date today or later,
non-empty `site_id`/`site_name`, `price ≥ 0`, `max_occupancy ∈ [1, 50]`. -/
def validAvailability (today : Nat) (a : CampsiteAvailability) : Bool :=
  decide (today ≤ a.check_in_date)
    && !(a.site_id.trim == "") && !(a.site_name.trim == "")
    && (match a.price with
        | none => true
        | some p => decide (0 ≤ p))
    && (match a.max_occupancy with
        | none => true
        | some o => decide (1 ≤ o) && decide (o ≤ 50))

/-- `AlertRule` model fields (models.py). -/
structure AlertRule where
  id : Option String := none
  user_email : String
  parks : List ParkEnum
  site_types : List SiteTypeEnum
  weekend_only : Bool := true
  min_nights : Nat := 1
  max_price : Option ℚ := none
  advance_notice_days : Nat := 7
  is_active : Bool := true
deriving DecidableEq, Repr

/-- The `AlertRule` validators: email shape aside, non-empty park and
site-type lists, `min_nights ∈ [1, 14]`, `max_price ≥ 0`,
`advance_notice_days ∈ [1, 180]`. -/
def validAlertRule (r : AlertRule) : Bool :=
  !(r.parks == []) && !(r.site_types == [])
    && decide (1 ≤ r.min_nights) && decide (r.min_nights ≤ 14)
    && (match r.max_price with
        | none => true
        | some p => decide (0 ≤ p))
    && decide (1 ≤ r.advance_notice_days) && decide (r.advance_notice_days ≤ 180)

/-- `NotificationRecord` model fields (models.py). -/
structure NotificationRecord where
  id : Option String := none
  alert_rule_id : String
  campsite_availability_key : String
  recipient_email : String
  park : ParkEnum
  site_id : String
  check_in_date : Nat
  status : NotificationStatus
  sent_at : Option Nat := none
  error_message : Option String := none
  retry_count : Nat := 0
deriving DecidableEq, Repr

/-- The de-duplication key text "{park}_{site id}_{check-in date}". -/
def notificationKey (park : ParkEnum) (site_id : String) (check_in_date : Nat) : String :=
  park.value ++ "_" ++ site_id ++ "_" ++ toString check_in_date

/-! ## Reservation content parsing (src/scraper/reservation_parser.py) -/

/-- `status_mapping` from `ReservationParser.__init__`, in dict insertion
order (Python dicts preserve insertion order). -/
def status_mapping : List (String × AvailabilityStatus) :=
  [("available", .available),
   ("open", .available),
   ("a", .available),
   ("booked", .booked),
   ("reserved", .booked),
   ("r", .booked),
   ("closed", .closed),
   ("c", .closed),
   ("maintenance", .maintenance),
   ("m", .maintenance),
   ("unavailable", .booked),
   ("na", .booked)]

/-- Python `str.lower` on one character (the inputs here are ASCII). -/
def pyLowerChar (c : Char) : Char :=
  if 'A' ≤ c ∧ c ≤ 'Z' then Char.ofNat (c.toNat + 32) else c

/-- Python `str.lower` (ASCII). -/
def pyLower (s : String) : String := ⟨s.data.map pyLowerChar⟩

/-- ASCII whitespace, as stripped by Python `str.strip()`. -/
def isSpaceChar (c : Char) : Bool :=
  c == ' ' || c == Char.ofNat 9 || c == Char.ofNat 10 || c == Char.ofNat 13

/-- Python `str.strip()`: drop leading and trailing whitespace. -/
def pyStrip (s : String) : String :=
  ⟨((s.data.dropWhile isSpaceChar).reverse.dropWhile isSpaceChar).reverse⟩

/-- Substring containment on character lists (Python's `needle in hay`). -/
def substrOf : List Char → List Char → Bool
  | n, [] => n.isEmpty
  | n, c :: t => n.isPrefixOf (c :: t) || substrOf n t

/-- Python's `key in text` on strings. -/
def pyIn (needle hay : String) : Bool := substrOf needle.data hay.data

/-- `ReservationParser._normalize_status`: empty (falsy) input is unknown;
otherwise lower-case and strip, then return the first table entry whose key
equals the text or occurs inside it; no hit is unknown. -/
def normalize_status (status_raw : String) : AvailabilityStatus :=
  if status_raw == "" then .unknown
  else
    let status_str := pyStrip (pyLower status_raw)
    match status_mapping.find? (fun kv => kv.1 == status_str || pyIn kv.1 status_str) with
    | some kv => kv.2
    | none => .unknown

/-- The verbatim text of reservation_parser.py line 299 (the `site_name`
assignment inside `_parse_json_availability_data`). -/
def parserSourceLine299 : String :=
  "            site_name = item.get(\x27siteName\x27, item.get(\x27name\x27, item.get(\x27site_name\x27, f\x27Site \x7bsite_id\x7d\x27))"

/-- The verbatim text of reservation_parser.py line 302 (the
`site_type_raw` assignment inside `_parse_json_availability_data`). -/
def parserSourceLine302 : String :=
  "            site_type_raw = item.get(\x27siteType\x27, item.get(\x27type\x27, item.get(\x27site_type\x27, \x27tent\x27))"

/-- Number of occurrences of a character in a string. -/
def charCount (c : Char) (s : String) : Nat := s.data.count c

/-! ## Rate limiter (src/scraper/rate_limiter.py)

Backoff arithmetic is over the rationals; for multiplier 2.0 and the small
exponents involved, Python float arithmetic is exact, so the embedding is
faithful. The wall-clock `last_error_time` is abstracted to whether it is
set, with `is_backing_off` taking the elapsed seconds as an argument. -/

structure RateLimiterState where
  backoff_multiplier : ℚ
  max_backoff_seconds : ℚ
  consecutive_errors : Nat
  has_last_error_time : Bool
deriving DecidableEq, Repr

def initRateLimiter (multiplier max_backoff : ℚ) : RateLimiterState :=
  { backoff_multiplier := multiplier, max_backoff_seconds := max_backoff,
    consecutive_errors := 0, has_last_error_time := false }

/-- The backoff formula `min(backoff_multiplier ** (consecutive_errors - 1),
max_backoff_seconds)` computed by `handle_error` and `is_backing_off`. -/
def backoffTime (st : RateLimiterState) : ℚ :=
  min (st.backoff_multiplier ^ (st.consecutive_errors - 1)) st.max_backoff_seconds

/-- `RateLimiter.handle_error`: increment the consecutive-error counter,
stamp the error time, sleep for the computed backoff. Returns the new
state and the seconds slept. -/
def handle_error (st : RateLimiterState) : RateLimiterState × ℚ :=
  let st' := { st with
    consecutive_errors := st.consecutive_errors + 1
    has_last_error_time := true }
  (st', backoffTime st')

/-- `RateLimiter.handle_success`: reset error tracking after a success. -/
def handle_success (st : RateLimiterState) : RateLimiterState :=
  if 0 < st.consecutive_errors then
    { st with consecutive_errors := 0, has_last_error_time := false }
  else st

/-- `RateLimiter.is_backing_off`, given the elapsed seconds since the last
error: false when no error time is recorded. -/
def is_backing_off (st : RateLimiterState) (elapsed : ℚ) : Bool :=
  if !st.has_last_error_time then false
  else decide (elapsed < backoffTime st)

/-- `n` consecutive `handle_error` calls; returns the final state and the
list of slept durations in order. -/
def iterate_handle_error (st : RateLimiterState) : Nat → RateLimiterState × List ℚ
  | 0 => (st, [])
  | n + 1 =>
    let p := handle_error st
    let q := iterate_handle_error p.1 n
    (q.1, p.2 :: q.2)

/-! ## Campsite search query (src/database/models.py, CampsiteSearchQuery) -/

structure CampsiteSearchQuery where
  parks : List ParkEnum
  start_date : Nat
  end_date : Nat
  site_types : Option (List SiteTypeEnum) := none
  max_price : Option ℚ := none
  min_occupancy : Option Nat := none
  weekend_only : Bool := false
deriving DecidableEq, Repr

inductive ValidationError where
  | emptyParks
  | startDateInPast
  | endDateNotAfterStart
deriving DecidableEq, Repr

/-- pydantic construction of `CampsiteSearchQuery`: non-empty `parks`
(min_items=1), `start_date` not before today, `end_date` strictly after
`start_date`. -/
def mkCampsiteSearchQuery (today : Nat) (parks : List ParkEnum)
    (start_date end_date : Nat) (site_types : Option (List SiteTypeEnum))
    (max_price : Option ℚ) (min_occupancy : Option Nat) (weekend_only : Bool) :
    Except ValidationError CampsiteSearchQuery :=
  if parks == [] then .error .emptyParks
  else if start_date < today then .error .startDateInPast
  else if end_date ≤ start_date then .error .endDateNotAfterStart
  else .ok { parks, start_date, end_date, site_types, max_price, min_occupancy, weekend_only }

/-- The `while current <= self.end_date` loop of `get_date_range`: keep a
date when the weekend-only flag is off or the weekday is Saturday/Sunday
(`current.weekday() >= 5`). `fuel` bounds the iterations; the top-level
call supplies one unit per day of the range, which is exactly enough. -/
def dateRangeLoop (endD : Nat) (weekend_only : Bool) : Nat → Nat → List Nat
  | 0, _ => []
  | fuel + 1, current =>
    if current ≤ endD then
      (if !weekend_only || decide (5 ≤ pyWeekday current) then [current] else [])
        ++ dateRangeLoop endD weekend_only fuel (current + 1)
    else []

/-- `CampsiteSearchQuery.get_date_range`. -/
def get_date_range (q : CampsiteSearchQuery) : List Nat :=
  dateRangeLoop q.end_date q.weekend_only (q.end_date + 1 - q.start_date) q.start_date

/-! ## Alert processing (src/notifications/alert_rules.py)

The processor's collaborators are abstracted into an environment: the
database cooldown lookup `check_notification_sent` and the SMTP outcome of
one alert email become oracles, and `datetime.utcnow`/`date.today` become
the `now`/`today` fields. The mutable `AlertProcessor` instance fields
(`processed_notifications`, `notification_batch`) are threaded explicitly,
together with the simulated database's stored notification rows. -/

/-- `AlertProcessor.is_weekend_date`: the broad weekend predicate,
`check_date.weekday() >= 4` (Friday, Saturday or Sunday). -/
def is_weekend_date (check_date : Nat) : Bool := decide (4 ≤ pyWeekday check_date)

/-- The key ordering used by `site_availability.sort(key=lambda x:
x.check_in_date)`. -/
def leDate (a b : CampsiteAvailability) : Prop := a.check_in_date ≤ b.check_in_date

instance : DecidableRel leDate := fun a b => Nat.decLe a.check_in_date b.check_in_date

instance : IsTotal CampsiteAvailability leDate :=
  ⟨fun a b => Nat.le_total a.check_in_date b.check_in_date⟩

instance : IsTrans CampsiteAvailability leDate :=
  ⟨fun _ _ _ hab hbc => Nat.le_trans hab hbc⟩

/-- The scanning loop of `_check_consecutive_nights` over the date-sorted
availability for one (park, site id): an entry equal to the expected date
extends the run (returning true as soon as it reaches `min_nights`), a
later entry is a gap and breaks the loop, an earlier entry is skipped. -/
def consecutiveLoop (min_nights : Nat) :
    List CampsiteAvailability → Nat → Nat → Bool
  | [], count, _ => decide (min_nights ≤ count)
  | a :: rest, count, current =>
    if a.check_in_date = current then
      if min_nights ≤ count + 1 then true
      else consecutiveLoop min_nights rest (count + 1) (current + 1)
    else if current < a.check_in_date then decide (min_nights ≤ count)
    else consecutiveLoop min_nights rest count current

/-- `AlertProcessor._check_consecutive_nights`. The Python stable sort is
modelled by insertion sort; only sortedness and membership matter. -/
def check_consecutive_nights (site : CampsiteAvailability)
    (all_availability : List CampsiteAvailability) (min_nights : Nat) : Bool :=
  let site_availability := all_availability.filter (fun a =>
    a.park == site.park && a.site_id == site.site_id
      && a.status == AvailabilityStatus.available)
  consecutiveLoop min_nights (site_availability.insertionSort leDate) 0 site.check_in_date

/-- `AlertProcessor._matches_alert_rule`. Note the price guard reproduces
Python truthiness: `if rule.max_price and site.price and site.price >
rule.max_price` skips the comparison when either value is `None` or `0.0`. -/
def matches_alert_rule (today : Nat) (rule : AlertRule) (site : CampsiteAvailability)
    (all_availability : List CampsiteAvailability) : Bool :=
  if !rule.parks.contains site.park then false
  else if !rule.site_types.contains site.site_type then false
  else if rule.weekend_only && !is_weekend_date site.check_in_date then false
  else if (match rule.max_price, site.price with
           | some mp, some p => !(mp == 0) && !(p == 0) && decide (mp < p)
           | _, _ => false) then false
  else if decide ((site.check_in_date : Int) - today < rule.advance_notice_days) then false
  else if 1 < rule.min_nights then
    check_consecutive_nights site all_availability rule.min_nights
  else true

/-- `AlertProcessor.find_matching_availability`: keep available-status
candidates not already notified within the cooldown window that satisfy
the rule predicate. -/
def find_matching_availability (today : Nat)
    (cooldownNotified : ParkEnum → String → Nat → Bool) (rule : AlertRule)
    (availability : List CampsiteAvailability) : List CampsiteAvailability :=
  availability.filter (fun site =>
    site.status == AvailabilityStatus.available
      && !cooldownNotified site.park site.site_id site.check_in_date
      && matches_alert_rule today rule site availability)

/-- `EmailNotificationService._create_notification_record` for a chunk's
first site (`sites[0]`); `now` is the `datetime.utcnow()` stamp. -/
def create_notification_record (now : Nat) (rule : AlertRule)
    (site : CampsiteAvailability) (status : NotificationStatus) : NotificationRecord :=
  { alert_rule_id := rule.id.getD "unknown"
    campsite_availability_key := notificationKey site.park site.site_id site.check_in_date
    recipient_email := rule.user_email
    park := site.park
    site_id := site.site_id
    check_in_date := site.check_in_date
    status := status
    sent_at := if status == NotificationStatus.sent then some now else none
    error_message := none }

/-- The alert processor's collaborators: clock, active rules as returned by
`get_active_alert_rules`, the database cooldown check
`check_notification_sent`, and whether the SMTP send of one chunk's email
succeeds. -/
structure AlertEnv where
  today : Nat
  now : Nat
  active_rules : List AlertRule
  cooldownNotified : ParkEnum → String → Nat → Bool
  smtp_send : AlertRule → List CampsiteAvailability → Bool

/-- `EmailNotificationService.send_availability_alert`, abstracting
rendering and SMTP delivery into `env.smtp_send`: a non-empty site list
yields a sent/failed record keyed off the first site; an empty list yields
the skipped sentinel record (its park defaults like `list(rule.parks)[0]`,
with the first configured park standing in for an invalid empty rule). -/
def send_availability_alert (env : AlertEnv) (rule : AlertRule)
    (sites : List CampsiteAvailability) : NotificationRecord :=
  match sites with
  | [] =>
    { alert_rule_id := rule.id.getD "unknown"
      campsite_availability_key := "unknown"
      recipient_email := rule.user_email
      park := rule.parks.headD ParkEnum.joshua_tree
      site_id := "unknown"
      check_in_date := env.today
      status := NotificationStatus.skipped
      sent_at := none
      error_message := some "No sites to notify about" }
  | first :: _ =>
    let status := if env.smtp_send rule sites then NotificationStatus.sent
                  else NotificationStatus.failed
    create_notification_record env.now rule first status

/-- Structural worker for `chunksOf`; for a positive chunk size, fuel
`l.length` is always sufficient. -/
def chunksOfFuel (n : Nat) : Nat → List α → List (List α)
  | 0, _ => []
  | _, [] => []
  | fuel + 1, x :: xs =>
    if n = 0 then []
    else (x :: xs).take n :: chunksOfFuel n fuel ((x :: xs).drop n)

/-- Python slicing `[l[i:i+n] for i in range(0, len(l), n)]`. -/
def chunksOf (n : Nat) (l : List α) : List (List α) := chunksOfFuel n l.length l

/-- The lengths of the successive slices of a list of length `m` cut into
chunks of `n`. -/
def chunkLens (n : Nat) : Nat → Nat → List Nat
  | 0, _ => []
  | _, 0 => []
  | fuel + 1, m => min n m :: chunkLens n fuel (m - n)

/-- Append a site to its park's group, creating the group at first sight
(`defaultdict(list)` iterates keys in insertion order). -/
def addToGroup (groups : List (ParkEnum × List CampsiteAvailability))
    (site : CampsiteAvailability) : List (ParkEnum × List CampsiteAvailability) :=
  match groups with
  | [] => [(site.park, [site])]
  | (p, sites) :: rest =>
    if p == site.park then (p, sites ++ [site]) :: rest
    else (p, sites) :: addToGroup rest site

/-- The `sites_by_park` grouping of `send_alert_notification`. -/
def groupByPark (sites : List CampsiteAvailability) :
    List (ParkEnum × List CampsiteAvailability) :=
  sites.foldl addToGroup []

/-- The mutable fields of a long-lived `AlertProcessor` instance, set up
once in `__init__`, plus the simulated database's stored notification
rows (the backend reports success for every insert). -/
structure AlertProcessorState where
  processed_notifications : List String
  notification_batch : List NotificationRecord
  stored_records : List NotificationRecord
deriving DecidableEq, Repr

/-- `AlertProcessor.__init__`: empty tracking state. -/
def initialAlertProcessorState : AlertProcessorState :=
  { processed_notifications := [], notification_batch := [], stored_records := [] }

/-- `set.add`: the processed-notifications set keeps one copy of a key. -/
def addKey (keys : List String) (k : String) : List String :=
  if keys.contains k then keys else keys ++ [k]

/-- One chunk iteration of `send_alert_notification`: send the email,
append the resulting record to the batch, and on success count it and mark
every chunk site's key as processed. -/
def processChunk (env : AlertEnv) (rule : AlertRule)
    (acc : AlertProcessorState × Nat) (chunk : List CampsiteAvailability) :
    AlertProcessorState × Nat :=
  let record := send_availability_alert env rule chunk
  let st := { acc.1 with notification_batch := acc.1.notification_batch ++ [record] }
  if record.status == NotificationStatus.sent then
    let keys := chunk.foldl
      (fun ks s => addKey ks (notificationKey s.park s.site_id s.check_in_date))
      st.processed_notifications
    ({ st with processed_notifications := keys }, acc.2 + 1)
  else (st, acc.2)

/-- `AlertProcessor.send_alert_notification`: group matches by park, split
each group into chunks of at most 10 sites, send one email per chunk, and
report whether at least one chunk was sent successfully. -/
def send_alert_notification (env : AlertEnv) (rule : AlertRule)
    (matching_sites : List CampsiteAvailability) (st : AlertProcessorState) :
    AlertProcessorState × Bool :=
  let final := (groupByPark matching_sites).foldl (fun acc g =>
      (chunksOf 10 g.2).foldl (processChunk env rule) acc) (st, 0)
  (final.1, decide (0 < final.2))

/-- The summary statistics returned by `process_new_availability` (the
early-return dictionaries carry zeros for the keys they omit). -/
structure ProcessStats where
  notifications_sent : Nat
  rules_processed : Nat
  errors : List String
  availability_processed : Nat
  weekend_sites_found : Nat
  rules_matched : Nat
deriving DecidableEq, Repr

/-- The number of available-status weekend (broad predicate) sites. -/
def weekendCount (availability : List CampsiteAvailability) : Nat :=
  (availability.filter (fun site =>
    is_weekend_date site.check_in_date
      && site.status == AvailabilityStatus.available)).length

/-- `AlertProcessor._store_notification_batch`: write every buffered record
through `record_notification` (the simulated backend always succeeds) and
clear the batch. -/
def store_notification_batch (st : AlertProcessorState) : AlertProcessorState :=
  { st with
    stored_records := st.stored_records ++ st.notification_batch
    notification_batch := [] }

/-- `AlertProcessor.process_new_availability` as a transformer of the
processor-instance state: empty input and no active rules return early;
otherwise each rule is matched and, on a match, a notification batch is
sent; finally a non-empty batch is flushed. The processed-notification
set is never cleared by any path. -/
def process_new_availability (env : AlertEnv) (st : AlertProcessorState)
    (availability : List CampsiteAvailability) : AlertProcessorState × ProcessStats :=
  if availability == [] then
    (st, { notifications_sent := 0, rules_processed := 0, errors := [],
           availability_processed := 0, weekend_sites_found := 0, rules_matched := 0 })
  else if env.active_rules == [] then
    (st, { notifications_sent := 0, rules_processed := env.active_rules.length,
           errors := [], availability_processed := availability.length,
           weekend_sites_found := 0, rules_matched := 0 })
  else
    let loopRes := env.active_rules.foldl
      (fun (acc : AlertProcessorState × Nat × Nat) rule =>
        let found := find_matching_availability env.today env.cooldownNotified
          rule availability
        if found == [] then acc
        else
          let sent := send_alert_notification env rule found acc.1
          (sent.1, (if sent.2 then acc.2.1 + 1 else acc.2.1), acc.2.2 + 1))
      (st, 0, 0)
    let st1 := if loopRes.1.notification_batch == [] then loopRes.1
               else store_notification_batch loopRes.1
    (st1, { notifications_sent := loopRes.2.1
            rules_processed := env.active_rules.length
            errors := []
            availability_processed := availability.length
            weekend_sites_found := weekendCount availability
            rules_matched := loopRes.2.2 })

/-! ## Data store client (src/database/supabase_client.py)

Writes and reads go through the MCP tool-invocation layer; the outcome of
each tool call is abstracted into an oracle so the failure policy of the
two paths can be stated for every backend behaviour. -/

/-- One `insert_rows` tool invocation as issued by
`store_availability_data`: one chunk of serialized rows, with upsert
conflict resolution keyed on (park, site_id, check_in_date). -/
structure InsertRequest where
  table : String
  rows : List CampsiteAvailability
  on_conflict : String
  conflict_columns : List String
deriving DecidableEq, Repr

/-- The typed error raised by the client's write path (`SupabaseError`, the
spec's StorageError). -/
inductive StorageError where
  | storageFailed (msg : String)
deriving DecidableEq, Repr

/-- The chunk loop of `store_availability_data`: issue each insert in
order; the first failing batch raises and stops the loop. Returns the
outcome together with the requests actually issued. -/
def storeLoop (insertOutcome : InsertRequest → Bool) :
    List InsertRequest → Except StorageError Bool × List InsertRequest
  | [] => (.ok true, [])
  | req :: rest =>
    if insertOutcome req then
      let r := storeLoop insertOutcome rest
      (r.1, req :: r.2)
    else (.error (.storageFailed "Failed to insert availability batch"), [req])

/-- The `insert_rows` request built for one chunk: upsert into the
availability table with conflict resolution keyed on
(park, site_id, check_in_date). -/
def mkInsertRequest (chunk : List CampsiteAvailability) : InsertRequest :=
  { table := "campsite_availability"
    rows := chunk
    on_conflict := "update"
    conflict_columns := ["park", "site_id", "check_in_date"] }

/-- `SupabaseClient.store_availability_data`: success without any insert on
empty input; otherwise upsert in chunks of 1000 keyed on
(park, site_id, check_in_date), raising `StorageError` on the first batch
whose tool call reports failure. -/
def store_availability_data (insertOutcome : InsertRequest → Bool)
    (availability : List CampsiteAvailability) :
    Except StorageError Bool × List InsertRequest :=
  if availability == [] then (.ok true, [])
  else storeLoop insertOutcome ((chunksOf 1000 availability).map mkInsertRequest)

/-- What the availability query returns: whether the tool call succeeded
and the rows, each either reconstructing into a valid record or not
(invalid rows are logged and skipped). -/
structure QueryResult where
  success : Bool
  rows : List (Option CampsiteAvailability)

/-- `SupabaseClient.get_availability_by_park`: on query success, the rows
that reconstruct; on any failure the `except` handler degrades to an empty
list — the function never raises. -/
def get_availability_by_park (queryOutcome : QueryResult) :
    List CampsiteAvailability :=
  if queryOutcome.success then queryOutcome.rows.reduceOption
  else []

/-! ## Calendar dashboard (src/dashboard/calendar_view.py) -/

structure CalendarDayData where
  date : Nat
  available_count : Nat
  total_sites : Nat
  weekend : Bool
  sites : List CampsiteAvailability
  avg_price : Option ℚ
  min_price : Option ℚ
deriving DecidableEq, Repr

structure CalendarMonthData where
  year : Nat
  month : Nat
  days : List CalendarDayData
  parks : List ParkEnum
  total_available : Nat
  weekend_available : Nat
deriving DecidableEq, Repr

/-- One day of `generate_calendar_data`: the strict weekend predicate
(`weekday() >= 5`), the day's available-status entries, the count of all
entries for the day, and price statistics over the day's truthy
(non-`None`, non-zero) prices. -/
def buildCalendarDay (year month : Nat)
    (all_availability : List CampsiteAvailability) (day : Nat) : CalendarDayData :=
  let current_date := dateOrdinal year month day
  let is_weekend := decide (5 ≤ pyWeekday current_date)
  let day_availability := all_availability.filter (fun a =>
    a.check_in_date == current_date && a.status == AvailabilityStatus.available)
  let total_sites := (all_availability.filter (fun a =>
    a.check_in_date == current_date)).length
  let prices := day_availability.filterMap (fun a =>
    match a.price with
    | some p => if p == 0 then none else some p
    | none => none)
  { date := current_date
    available_count := day_availability.length
    total_sites := total_sites
    weekend := is_weekend
    sites := day_availability
    avg_price := if prices == [] then none else some (prices.sum / prices.length)
    min_price := prices.min? }

/-- `DashboardAPI.generate_calendar_data` for one month: iterate day
1..monthrange(year, month)[1], building each day's data and accumulating
the month totals exactly as the loop does. `all_availability` is the
concatenation of the per-park month queries. -/
def generate_calendar_data (year month : Nat) (parksReq : List ParkEnum)
    (all_availability : List CampsiteAvailability) : CalendarMonthData :=
  let last_day_num := daysInMonth year month
  let acc := (List.range last_day_num).foldl
    (fun (acc : List CalendarDayData × Nat × Nat) i =>
      let day_data := buildCalendarDay year month all_availability (i + 1)
      (acc.1 ++ [day_data], acc.2.1 + day_data.available_count,
       if day_data.weekend then acc.2.2 + day_data.available_count else acc.2.2))
    ([], 0, 0)
  { year := year
    month := month
    days := acc.1
    parks := parksReq
    total_available := acc.2.1
    weekend_available := acc.2.2 }

/-! ## Direct fallback scraper (src/scraper/direct_scraper.py)

The placeholder scraper synthesizes per-park sample records. Each Python
constructor call also passes `check_out_date` and `booking_url` keyword
arguments; `CampsiteAvailability` has no such fields and pydantic's
default config silently ignores unknown keywords, so they never reach the
record and the `url` field keeps its `None` default. -/

/-- Zero-padded two-digit rendering, as `strftime` field formatting. -/
def pad2 (n : Nat) : String := if n < 10 then "0" ++ toString n else toString n

/-- One synthesized Carlsbad record (`weekday in [0, 1, 4]` branch). -/
def carlsbadSite (now : Nat) (d : PyDate) : CampsiteAvailability :=
  { park := ParkEnum.carlsbad
    site_id := "CARL-" ++ pad2 d.month ++ pad2 d.day ++ "-47"
    site_name := "Beachfront Site #" ++ toString (47 + d.day % 20)
    site_type := SiteTypeEnum.rv
    check_in_date := d.ordinal
    status := AvailabilityStatus.available
    price := some (if 5 ≤ d.weekday then 65 else 55)
    max_occupancy := some 6
    amenities := ["Full Hookups", "Beach Access", "Fire Ring"]
    scraped_at := now }

/-- One synthesized Joshua Tree record (`weekday in [2, 3, 6]` branch). -/
def joshuaTreeSite (now : Nat) (d : PyDate) : CampsiteAvailability :=
  { park := ParkEnum.joshua_tree
    site_id := "JOSH-" ++ pad2 d.month ++ pad2 d.day ++ "-15"
    site_name := "Jumbo Rocks Site #" ++ toString (15 + d.day % 30)
    site_type := SiteTypeEnum.tent
    check_in_date := d.ordinal
    status := AvailabilityStatus.available
    price := some 35
    max_occupancy := some 4
    amenities := ["Fire Ring", "Picnic Table", "Desert Views"]
    scraped_at := now }

/-- One synthesized Oceanside record (`weekday in [1, 5]` branch). -/
def oceansideSite (now : Nat) (d : PyDate) : CampsiteAvailability :=
  { park := ParkEnum.oceanside
    site_id := "OCEAN-" ++ pad2 d.month ++ pad2 d.day ++ "-22"
    site_name := "San Elijo Site #" ++ toString (22 + d.day % 15)
    site_type := SiteTypeEnum.rv
    check_in_date := d.ordinal
    status := AvailabilityStatus.available
    price := some 45
    max_occupancy := some 5
    amenities := ["Partial Hookups", "Beach Access", "Restrooms"]
    scraped_at := now }

/-- The weekdays on which each park's placeholder loop emits a record. -/
def parkWeekdays : ParkEnum → List Nat
  | .carlsbad => [0, 1, 4]
  | .joshua_tree => [2, 3, 6]
  | .oceanside => [1, 5]

/-- The per-park record builder. -/
def parkSiteBuilder : ParkEnum → Nat → PyDate → CampsiteAvailability
  | .carlsbad => carlsbadSite
  | .joshua_tree => joshuaTreeSite
  | .oceanside => oceansideSite

/-- The `while current_date <= end_date` loop shared by the three park
branches of `scrape_park_availability`. `fuel` bounds the iteration count;
the top-level call supplies one unit per day of the range, and on valid
dates each step advances the ordinal by exactly one (`PyDate.ordinal_succ`),
so this is the Python while loop. -/
def scrapeLoop (park : ParkEnum) (now endOrd : Nat) :
    Nat → PyDate → List CampsiteAvailability
  | 0, _ => []
  | fuel + 1, current =>
    if current.ordinal ≤ endOrd then
      (if (parkWeekdays park).contains current.weekday
       then [parkSiteBuilder park now current] else [])
        ++ scrapeLoop park now endOrd fuel current.succ
    else []

/-- `DirectScraper.scrape_park_availability` over the range given by
(start, end) date triples. -/
def scrape_park_availability (park : ParkEnum) (now : Nat)
    (start_date end_date : PyDate) : List CampsiteAvailability :=
  scrapeLoop park now end_date.ordinal
    (end_date.ordinal + 1 - start_date.ordinal) start_date

/-! ## Specification-side predicates and concrete fixtures -/

/-- The spec's consecutive-night requirement: among the available-status
records for the same (park, site id) there is an entry on every one of the
`min_nights` consecutive calendar days starting at the candidate's
check-in date (a gap breaks the run). -/
def ConsecutiveRunSpec (site : CampsiteAvailability)
    (all : List CampsiteAvailability) (min_nights : Nat) : Prop :=
  ∀ k, k < min_nights → ∃ a, a ∈ all ∧
    a.park = site.park ∧ a.site_id = site.site_id
    ∧ a.status = AvailabilityStatus.available
    ∧ a.check_in_date = site.check_in_date + k

/-- The rule-match conditions exactly as the claim words them: condition
(d) bounds the price whenever the rule sets any max price and the record
carries any price. -/
def RuleMatchClaim (today : Nat) (rule : AlertRule) (site : CampsiteAvailability)
    (all : List CampsiteAvailability) : Prop :=
  site.park ∈ rule.parks
  ∧ site.site_type ∈ rule.site_types
  ∧ (rule.weekend_only = true →
      pyWeekday site.check_in_date = 4 ∨ pyWeekday site.check_in_date = 5
        ∨ pyWeekday site.check_in_date = 6)
  ∧ (∀ mp p, rule.max_price = some mp → site.price = some p → p ≤ mp)
  ∧ ((rule.advance_notice_days : Int) ≤ (site.check_in_date : Int) - (today : Int))
  ∧ (1 < rule.min_nights → ConsecutiveRunSpec site all rule.min_nights)

/-- The rule-match conditions with the price clause amended to the
truthiness the code implements: a max price of 0.0 is falsy in Python and
imposes no bound. -/
def RuleMatchAmended (today : Nat) (rule : AlertRule) (site : CampsiteAvailability)
    (all : List CampsiteAvailability) : Prop :=
  site.park ∈ rule.parks
  ∧ site.site_type ∈ rule.site_types
  ∧ (rule.weekend_only = true →
      pyWeekday site.check_in_date = 4 ∨ pyWeekday site.check_in_date = 5
        ∨ pyWeekday site.check_in_date = 6)
  ∧ (∀ mp p, rule.max_price = some mp → mp ≠ 0 → site.price = some p → p ≤ mp)
  ∧ ((rule.advance_notice_days : Int) ≤ (site.check_in_date : Int) - (today : Int))
  ∧ (1 < rule.min_nights → ConsecutiveRunSpec site all rule.min_nights)

/-- A valid alert rule whose max price is the falsy 0.0. -/
def zeroPriceRule : AlertRule :=
  { id := some "rule-1"
    user_email := "user@example.com"
    parks := [ParkEnum.carlsbad]
    site_types := [SiteTypeEnum.rv]
    weekend_only := false
    min_nights := 1
    max_price := some 0
    advance_notice_days := 1 }

/-- An available Carlsbad RV site priced at $50, five days after day 0. -/
def pricedSite : CampsiteAvailability :=
  { park := ParkEnum.carlsbad
    site_id := "S1"
    site_name := "Site S1"
    site_type := SiteTypeEnum.rv
    check_in_date := 5
    status := AvailabilityStatus.available
    price := some 50 }

/-- An active rule matching `pricedSite`, for the retention scenario. -/
def retentionRule : AlertRule :=
  { id := some "rule-2"
    user_email := "user@example.com"
    parks := [ParkEnum.carlsbad]
    site_types := [SiteTypeEnum.rv]
    weekend_only := false
    min_nights := 1
    max_price := none
    advance_notice_days := 1 }

/-- Environment with that one active rule, no cooldown suppression, and an
SMTP relay that accepts every send. -/
def retentionEnv : AlertEnv :=
  { today := 0
    now := 0
    active_rules := [retentionRule]
    cooldownNotified := fun _ _ _ => false
    smtp_send := fun _ _ => true }

/-! ## Calendar arithmetic lemmas -/

theorem daysBeforeMonth_succ (y m : Nat) (hm : 1 ≤ m) :
    daysBeforeMonth y (m + 1) = daysBeforeMonth y m + daysInMonth y m := by
  unfold daysBeforeMonth
  have h1 : m + 1 - 1 = (m - 1) + 1 := by omega
  rw [h1, List.range_succ]
  have h2 : m - 1 + 1 = m := by omega
  simp [h2]

theorem daysBeforeMonth_thirteen (y : Nat) :
    daysBeforeMonth y 13 = if isLeap y then 366 else 365 := by
  have hr : List.range 12 = [0, 1, 2, 3, 4, 5, 6, 7, 8, 9, 10, 11] := by decide
  unfold daysBeforeMonth
  norm_num [hr]
  cases h : isLeap y <;> simp [daysInMonth, h]

theorem daysBeforeYear_succ (y : Nat) (hy : 1 ≤ y) :
    daysBeforeYear (y + 1) = daysBeforeYear y + (if isLeap y then 366 else 365) := by
  unfold daysBeforeYear
  rw [Nat.add_sub_cancel]
  have hyy : (y - 1) + 1 = y := by omega
  have h4 : y / 4 = (y - 1) / 4 + if 4 ∣ y then 1 else 0 := by
    conv_lhs => rw [← hyy]
    rw [Nat.succ_div, hyy]
  have h100 : y / 100 = (y - 1) / 100 + if 100 ∣ y then 1 else 0 := by
    conv_lhs => rw [← hyy]
    rw [Nat.succ_div, hyy]
  have h400 : y / 400 = (y - 1) / 400 + if 400 ∣ y then 1 else 0 := by
    conv_lhs => rw [← hyy]
    rw [Nat.succ_div, hyy]
  have hq4 : (y - 1) / 4 ≤ (y - 1) * 365 := by
    calc (y - 1) / 4 ≤ y - 1 := Nat.div_le_self _ _
    _ ≤ (y - 1) * 365 := Nat.le_mul_of_pos_right _ (by norm_num)
  have hq100 : (y - 1) / 100 ≤ (y - 1) / 4 := by
    exact Nat.div_le_div_left (by norm_num) (by norm_num)
  rw [h4, h100, h400]
  by_cases c4 : y % 4 = 0 <;> by_cases c100 : y % 100 = 0 <;> by_cases c400 : y % 400 = 0 <;>
    simp only [isLeap, c4, c100, c400, Nat.dvd_iff_mod_eq_zero, if_true, if_false,
      decide_True, decide_False, beq_iff_eq, bne_iff_ne, ne_eq] <;>
    simp [c4, c100, c400] <;>
    omega

theorem daysInMonth_pos (y m : Nat) : 1 ≤ daysInMonth y m := by
  unfold daysInMonth
  split_ifs <;> omega

theorem PyDate.succ_valid (t : PyDate) (h : t.Valid) : t.succ.Valid := by
  obtain ⟨h1, h2, h3, h4, h5⟩ := h
  unfold PyDate.succ
  split
  · refine ⟨h1, h2, h3, ?_, ?_⟩
    · show 1 ≤ t.day + 1
      omega
    · show t.day + 1 ≤ daysInMonth t.year t.month
      omega
  · split
    · rename_i hmlt
      refine ⟨h1, ?_, ?_, le_refl 1, ?_⟩
      · show 1 ≤ t.month + 1
        omega
      · show t.month + 1 ≤ 12
        omega
      · show 1 ≤ daysInMonth t.year (t.month + 1)
        exact daysInMonth_pos _ _
    · refine ⟨?_, le_refl 1, by norm_num, le_refl 1, ?_⟩
      · show 1 ≤ t.year + 1
        omega
      · show 1 ≤ daysInMonth (t.year + 1) 1
        exact daysInMonth_pos _ _

theorem PyDate.ordinal_succ (t : PyDate) (h : t.Valid) :
    t.succ.ordinal = t.ordinal + 1 := by
  obtain ⟨h1, h2, h3, h4, h5⟩ := h
  unfold PyDate.succ
  split
  · simp [PyDate.ordinal, dateOrdinal]; omega
  · split
    · rename_i hlt hm12
      have hd : t.day = daysInMonth t.year t.month := by omega
      simp only [PyDate.ordinal, dateOrdinal]
      rw [daysBeforeMonth_succ t.year t.month h2, hd]
      omega
    · rename_i hlt hm12
      have hm : t.month = 12 := by omega
      have hd : t.day = daysInMonth t.year t.month := by omega
      simp only [PyDate.ordinal, dateOrdinal]
      have hy1 := daysBeforeYear_succ t.year h1
      have h13 : daysBeforeMonth t.year 13 = daysBeforeMonth t.year 12 + daysInMonth t.year 12 := by
        have := daysBeforeMonth_succ t.year 12 (by norm_num)
        norm_num at this
        exact this
      have h365 : daysBeforeMonth t.year 13 = if isLeap t.year then 366 else 365 :=
        daysBeforeMonth_thirteen t.year
    -- days before month 1 of the next year is zero
      have hz : daysBeforeMonth (t.year + 1) 1 = 0 := by simp [daysBeforeMonth]
      rw [hd, hm]
      rw [hy1, hz]
      omega

/-! ## Claim theorems: parser source and status normalization -/

/-- **C2** (safety): the `site_name` assignment on line 299 and the
`site_type_raw` assignment on line 302 of
`ReservationParser._parse_json_availability_data` each open one more
parenthesis than they close, so the statements never close and the module
is syntactically invalid Python: it fails to load, leaving every parser
operation (all four strategies, the JSON-structure logic and the
cross-strategy de-duplication) unreachable for any input. -/
theorem c2_parser_source_unbalanced :
    charCount '(' parserSourceLine299 = charCount ')' parserSourceLine299 + 1
    ∧ charCount '(' parserSourceLine302 = charCount ')' parserSourceLine302 + 1 := by
  exact ⟨by rfl, by rfl⟩

/-- **C3** (code bug): the claim (and the code's own `status_mapping`
table, which maps both tokens to booked) says lower-cased "unavailable"
and "na" normalize to booked; but the matching loop tests substring
containment in dict insertion order, and "available" occurs inside
"unavailable" (and "a" inside "na"), so `_normalize_status` returns
available for both inputs — those two table entries are unreachable. -/
theorem c3_normalize_status_unavailable_na :
    normalize_status "unavailable" = AvailabilityStatus.available
    ∧ normalize_status "na" = AvailabilityStatus.available
    ∧ status_mapping.lookup "unavailable" = some AvailabilityStatus.booked
    ∧ status_mapping.lookup "na" = some AvailabilityStatus.booked := by
  refine ⟨by rfl, by rfl, by rfl, by rfl⟩

/-! ## Claim theorems: rate limiter backoff -/

/-- **C5** counterexample: from a fresh limiter with multiplier 2.0 and max
backoff 300 s, three consecutive `handle_error` calls sleep 1, 2 and 4
seconds — the computed backoff before a 4th retry is 4, not the
min(2^3, 300) = 8 the claim states. -/
theorem c5_claim_counterexample :
    (iterate_handle_error (initRateLimiter 2 300) 3).2 = [1, 2, 4]
    ∧ (iterate_handle_error (initRateLimiter 2 300) 3).2.getLast? ≠ some 8 := by
  exact ⟨by decide, by decide⟩

/-- **C5** amended: `handle_error` increments the consecutive-error counter
and suspends for min(multiplier^(errors−1), 300) seconds; with multiplier
2.0 and max backoff 300 s, after 3 consecutive `handle_error` calls the
computed backoff before a 4th retry equals min(2^(3−1), 300) = 4 seconds;
a subsequent `handle_success` resets the count to 0 and `is_backing_off`
becomes false immediately, whatever time has elapsed. -/
theorem c5_backoff_amended :
    (∀ st : RateLimiterState,
      (handle_error st).1.consecutive_errors = st.consecutive_errors + 1
      ∧ (handle_error st).2
          = min (st.backoff_multiplier ^ ((st.consecutive_errors + 1) - 1))
              st.max_backoff_seconds)
    ∧ (iterate_handle_error (initRateLimiter 2 300) 3).2 = [1, 2, 4]
    ∧ (iterate_handle_error (initRateLimiter 2 300) 3).1.consecutive_errors = 3
    ∧ min ((2 : ℚ) ^ (3 - 1)) 300 = 4
    ∧ (handle_success (iterate_handle_error (initRateLimiter 2 300) 3).1).consecutive_errors = 0
    ∧ (∀ elapsed : ℚ, is_backing_off
        (handle_success (iterate_handle_error (initRateLimiter 2 300) 3).1) elapsed = false) := by
  refine ⟨fun st => ⟨rfl, rfl⟩, by decide, by decide, by decide, by decide, fun elapsed => rfl⟩

/-- **C5** witness: the amended theorem applied to the fresh limiter and an
elapsed time of 7 seconds. -/
theorem c5_backoff_amended_witness :
    (handle_error (initRateLimiter 2 300)).1.consecutive_errors = 0 + 1
    ∧ is_backing_off (handle_success (iterate_handle_error (initRateLimiter 2 300) 3).1) 7 = false :=
  ⟨(c5_backoff_amended.1 (initRateLimiter 2 300)).1, c5_backoff_amended.2.2.2.2.2 7⟩

/-! ## Claim theorems: alert accumulator scoping -/

/-- **C4** (code bug): the processed-notification key set is an instance
field that no code path clears, so after one `process_new_availability`
call that sends successfully, the accumulator a later call on the same
long-lived processor starts from is non-empty — not the freshly created,
per-call state the spec requires. -/
theorem c4_accumulator_retained :
    (process_new_availability retentionEnv initialAlertProcessorState
        [pricedSite]).1.processed_notifications
      = [notificationKey ParkEnum.carlsbad "S1" 5]
    ∧ (process_new_availability retentionEnv initialAlertProcessorState
        [pricedSite]).1.processed_notifications ≠ [] := by
  exact ⟨by decide, by decide⟩

/-! ## Claim theorems: data store failure policy -/

theorem chunksOfFuel_mem_length_le (n : Nat) :
    ∀ (fuel : Nat) (l : List α), ∀ c ∈ chunksOfFuel n fuel l, c.length ≤ n
  | 0, l => by simp [chunksOfFuel]
  | fuel + 1, [] => by simp [chunksOfFuel]
  | fuel + 1, x :: xs => by
    intro c hc
    rw [chunksOfFuel] at hc
    by_cases hn : n = 0
    · simp [hn] at hc
    · rw [if_neg hn] at hc
      rcases List.mem_cons.mp hc with rfl | h
      · rw [List.length_take]
        omega
      · exact chunksOfFuel_mem_length_le n fuel _ c h

theorem mem_chunksOf_length_le (n : Nat) (l : List α) :
    ∀ c ∈ chunksOf n l, c.length ≤ n :=
  chunksOfFuel_mem_length_le n l.length l

theorem storeLoop_issued_sub (outcome : InsertRequest → Bool) :
    ∀ reqs : List InsertRequest, ∀ r ∈ (storeLoop outcome reqs).2, r ∈ reqs
  | [] => by simp [storeLoop]
  | req :: rest => by
    intro r hr
    rw [storeLoop] at hr
    by_cases h : outcome req
    · rw [if_pos h] at hr
      rcases List.mem_cons.mp hr with rfl | h2
      · exact List.mem_cons_self _ _
      · exact List.mem_cons_of_mem _ (storeLoop_issued_sub outcome rest r h2)
    · rw [if_neg h] at hr
      rcases List.mem_cons.mp hr with rfl | h2
      · exact List.mem_cons_self _ _
      · simp at h2

theorem storeLoop_spec (outcome : InsertRequest → Bool) :
    ∀ reqs : List InsertRequest,
      ((storeLoop outcome reqs).1 = Except.ok true ↔ ∀ r ∈ reqs, outcome r = true)
      ∧ ((∃ e, (storeLoop outcome reqs).1 = Except.error e) ↔
          ∃ r ∈ reqs, outcome r = false)
  | [] => by simp [storeLoop]
  | req :: rest => by
    have ih := storeLoop_spec outcome rest
    by_cases h : outcome req
    · have e1 : storeLoop outcome (req :: rest) =
          ((storeLoop outcome rest).1, req :: (storeLoop outcome rest).2) := by
        simp [storeLoop, h]
      rw [e1]
      simp only [List.forall_mem_cons, List.exists_mem_cons]
      constructor
      · rw [ih.1]
        simp [h]
      · rw [ih.2]
        simp [h]
    · have e1 : storeLoop outcome (req :: rest) =
          (Except.error (StorageError.storageFailed "Failed to insert availability batch"),
            [req]) := by
        simp [storeLoop, h]
      rw [e1]
      simp only [List.forall_mem_cons, List.exists_mem_cons]
      constructor
      · simp [h]
      · simp [h]

/-- **C7**: the write and read paths fail differently. For every backend
behaviour: `store_availability_data` returns success on an empty list
without issuing any insert; on non-empty input every issued insert is an
upsert of at most 1000 rows into the availability table keyed on
(park, site_id, check_in_date), the call succeeds exactly when every chunk
is accepted, and any chunk reporting failure makes it raise the typed
`StorageError`; whereas `get_availability_by_park` never raises — any
query failure degrades to the empty list. -/
theorem c7_store_raises_read_degrades (outcome : InsertRequest → Bool)
    (availability : List CampsiteAvailability) (q : QueryResult) :
    (store_availability_data outcome [] = (Except.ok true, []))
    ∧ (∀ req ∈ (store_availability_data outcome availability).2,
        req.rows.length ≤ 1000 ∧ req.table = "campsite_availability"
          ∧ req.on_conflict = "update"
          ∧ req.conflict_columns = ["park", "site_id", "check_in_date"])
    ∧ (availability ≠ [] →
        (((store_availability_data outcome availability).1 = Except.ok true ↔
            ∀ chunk ∈ chunksOf 1000 availability,
              outcome (mkInsertRequest chunk) = true)
          ∧ ((∃ e, (store_availability_data outcome availability).1 = Except.error e) ↔
              ∃ chunk ∈ chunksOf 1000 availability,
                outcome (mkInsertRequest chunk) = false)))
    ∧ (q.success = false → get_availability_by_park q = []) := by
  refine ⟨rfl, ?_, ?_, ?_⟩
  · intro req hreq
    by_cases he : availability = []
    · subst he
      simp [store_availability_data] at hreq
    · have he2 : store_availability_data outcome availability =
          storeLoop outcome ((chunksOf 1000 availability).map mkInsertRequest) := by
        simp [store_availability_data, he]
      rw [he2] at hreq
      have hsub := storeLoop_issued_sub outcome
        ((chunksOf 1000 availability).map mkInsertRequest) req hreq
      rcases List.mem_map.mp hsub with ⟨chunk, hchunk, rfl⟩
      exact ⟨mem_chunksOf_length_le 1000 availability chunk hchunk, rfl, rfl, rfl⟩
  · intro hne
    have he2 : store_availability_data outcome availability =
        storeLoop outcome ((chunksOf 1000 availability).map mkInsertRequest) := by
      simp [store_availability_data, hne]
    rw [he2]
    have hs := storeLoop_spec outcome ((chunksOf 1000 availability).map mkInsertRequest)
    constructor
    · rw [hs.1]
      exact List.forall_mem_map
    · rw [hs.2]
      constructor
      · intro ⟨r, hr, hro⟩
        rcases List.mem_map.mp hr with ⟨chunk, hchunk, rfl⟩
        exact ⟨chunk, hchunk, hro⟩
      · intro ⟨chunk, hchunk, hro⟩
        exact ⟨mkInsertRequest chunk, List.mem_map.mpr ⟨chunk, hchunk, rfl⟩, hro⟩
  · intro hq
    simp [get_availability_by_park, hq]

/-- **C7** witness: a backend that rejects every insert and a failing
query, with a one-record write and the empty-input write. -/
theorem c7_failure_policy_witness :
    (([pricedSite] : List CampsiteAvailability) ≠ []
      ∧ (QueryResult.mk false []).success = false)
    ∧ store_availability_data (fun _ => false) [] = (Except.ok true, [])
    ∧ get_availability_by_park (QueryResult.mk false []) = []
    ∧ (∃ e, (store_availability_data (fun _ => false) [pricedSite]).1 = Except.error e) := by
  refine ⟨⟨by decide, rfl⟩,
    (c7_store_raises_read_degrades (fun _ => false) [pricedSite] (QueryResult.mk false [])).1,
    (c7_store_raises_read_degrades (fun _ => false) [pricedSite] (QueryResult.mk false [])).2.2.2 rfl,
    ?_⟩
  have h := ((c7_store_raises_read_degrades (fun _ => false) [pricedSite]
    (QueryResult.mk false [])).2.2.1 (by decide)).2
  exact h.mpr ⟨[pricedSite], by decide, rfl⟩

/-! ## Claim theorems: search query validation and date range -/

theorem pyWeekday_lt (o : Nat) : pyWeekday o < 7 := Nat.mod_lt _ (by norm_num)

theorem dateRangeLoop_eq_filter (endD : Nat) (w : Bool) :
    ∀ fuel current, endD + 1 - current ≤ fuel →
      dateRangeLoop endD w fuel current =
        (List.range' current (endD + 1 - current)).filter
          (fun d => !w || decide (5 ≤ pyWeekday d))
  | 0, current, h => by
    have h0 : endD + 1 - current = 0 := by omega
    rw [dateRangeLoop, h0]
    simp
  | fuel + 1, current, h => by
    rw [dateRangeLoop]
    by_cases hc : current ≤ endD
    · rw [if_pos hc]
      have hlen : endD + 1 - current = (endD + 1 - (current + 1)) + 1 := by omega
      rw [hlen, List.range'_succ, List.filter_cons]
      rw [dateRangeLoop_eq_filter endD w fuel (current + 1) (by omega)]
      cases hg : (!w || decide (5 ≤ pyWeekday current)) <;> simp [hg]
    · rw [if_neg hc]
      have h0 : endD + 1 - current = 0 := by omega
      rw [h0]
      simp

/-- **C9**: constructing a `CampsiteSearchQuery` fails with a validation
error whenever the end date is not after the start date or the start date
is in the past; every validly constructed query's derived date sequence
contains exactly the dates from start to end inclusive — restricted to
Saturdays and Sundays exactly when the weekend-only flag is set — in
strictly ascending order. -/
theorem c9_search_query_dates (today : Nat) (parks : List ParkEnum)
    (s e : Nat) (st : Option (List SiteTypeEnum)) (mp : Option ℚ)
    (mo : Option Nat) (w : Bool) :
    ((e ≤ s ∨ s < today) →
      ∃ err, mkCampsiteSearchQuery today parks s e st mp mo w = Except.error err)
    ∧ (∀ q, mkCampsiteSearchQuery today parks s e st mp mo w = Except.ok q →
        (today ≤ q.start_date ∧ q.start_date < q.end_date)
        ∧ (∀ d, d ∈ get_date_range q ↔
            (q.start_date ≤ d ∧ d ≤ q.end_date
              ∧ (q.weekend_only = true → pyWeekday d = 5 ∨ pyWeekday d = 6)))
        ∧ (get_date_range q).Pairwise (· < ·)) := by
  constructor
  · intro hbad
    unfold mkCampsiteSearchQuery
    by_cases h1 : parks == []
    · exact ⟨ValidationError.emptyParks, by rw [if_pos h1]⟩
    · rw [if_neg h1]
      by_cases h2 : s < today
      · exact ⟨ValidationError.startDateInPast, by rw [if_pos h2]⟩
      · rw [if_neg h2]
        have h3 : e ≤ s := by omega
        exact ⟨ValidationError.endDateNotAfterStart, by rw [if_pos h3]⟩
  · intro q hq
    unfold mkCampsiteSearchQuery at hq
    by_cases h1 : parks == []
    · rw [if_pos h1] at hq
      exact absurd hq (by simp)
    · rw [if_neg h1] at hq
      by_cases h2 : s < today
      · rw [if_pos h2] at hq
        exact absurd hq (by simp)
      · rw [if_neg h2] at hq
        by_cases h3 : e ≤ s
        · rw [if_pos h3] at hq
          exact absurd hq (by simp)
        · rw [if_neg h3] at hq
          have hqq : q = ⟨parks, s, e, st, mp, mo, w⟩ := by
            cases hq
            rfl
          subst hqq
          have hrange : get_date_range ⟨parks, s, e, st, mp, mo, w⟩ =
              (List.range' s (e + 1 - s)).filter
                (fun d => !w || decide (5 ≤ pyWeekday d)) :=
            dateRangeLoop_eq_filter e w (e + 1 - s) s (le_refl _)
          refine ⟨⟨?_, ?_⟩, ?_, ?_⟩
          · show today ≤ s
            omega
          · show s < e
            omega
          · intro d
            rw [hrange]
            simp only [List.mem_filter, List.mem_range'_1]
            constructor
            · intro ⟨⟨hd1, hd2⟩, hd3⟩
              refine ⟨hd1, by omega, ?_⟩
              intro hw
              rw [hw] at hd3
              simp at hd3
              have := pyWeekday_lt d
              omega
            · intro ⟨hd1, hd2, hd3⟩
              refine ⟨⟨hd1, by omega⟩, ?_⟩
              cases w
              · simp
              · simp only [Bool.not_true, Bool.false_or, decide_eq_true_eq]
                rcases hd3 rfl with h | h <;> omega
          · rw [hrange]
            exact (List.pairwise_lt_range' s (e + 1 - s) 1 (by norm_num)).sublist
              (List.filter_sublist _)

/-- **C9** witness: day 0 with today = 1 is rejected; the valid weekend-only
query over days 6..8 (a Friday-to-Sunday span in the ordinal calendar)
contains day 6 — a Saturday — and its range is derived by the theorem. -/
theorem c9_search_query_witness :
    (∃ err, mkCampsiteSearchQuery 1 [ParkEnum.carlsbad] 0 3 none none none false
      = Except.error err)
    ∧ ((6 : Nat) ∈ get_date_range ⟨[ParkEnum.carlsbad], 6, 8, none, none, none, true⟩ ↔
        (6 ≤ 6 ∧ 6 ≤ 8 ∧ (true = true → pyWeekday 6 = 5 ∨ pyWeekday 6 = 6))) := by
  constructor
  · exact (c9_search_query_dates 1 [ParkEnum.carlsbad] 0 3 none none none false).1
      (by omega)
  · exact (((c9_search_query_dates 0 [ParkEnum.carlsbad] 6 8 none none none true).2
      _ (by rfl)).2.1 6)

/-! ## Claim theorems: direct fallback scraper output -/

theorem parkSiteBuilder_fields (park : ParkEnum) (now : Nat) (d : PyDate) :
    (parkSiteBuilder park now d).status = AvailabilityStatus.available
    ∧ (parkSiteBuilder park now d).url = none
    ∧ (parkSiteBuilder park now d).check_in_date = d.ordinal := by
  cases park <;> exact ⟨rfl, rfl, rfl⟩

theorem scrapeLoop_mem_spec (park : ParkEnum) (now endOrd : Nat) :
    ∀ (fuel : Nat) (current : PyDate), current.Valid →
      ∀ r ∈ scrapeLoop park now endOrd fuel current,
        r.status = AvailabilityStatus.available ∧ r.url = none
          ∧ current.ordinal ≤ r.check_in_date
  | 0, current, _ => by simp [scrapeLoop]
  | fuel + 1, current, hv => by
    intro r hr
    rw [scrapeLoop] at hr
    by_cases hc : current.ordinal ≤ endOrd
    · rw [if_pos hc] at hr
      rcases List.mem_append.mp hr with h | h
      · by_cases hw : (parkWeekdays park).contains current.weekday
        · rw [if_pos hw] at h
          rcases List.mem_singleton.mp h with rfl
          have hf := parkSiteBuilder_fields park now current
          exact ⟨hf.1, hf.2.1, le_of_eq hf.2.2.symm⟩
        · rw [if_neg hw] at h
          simp at h
      · have hnext := scrapeLoop_mem_spec park now endOrd fuel current.succ
          (current.succ_valid hv) r h
        refine ⟨hnext.1, hnext.2.1, ?_⟩
        have := current.ordinal_succ hv
        omega
    · rw [if_neg hc] at hr
      simp at hr

/-- **C10**: for every park and date range whose start is a valid date not
in the past, every record the direct fallback scraper synthesizes has
status available and its `url` field is `None` — the `check_out_date` and
`booking_url` constructor arguments name no model field, and pydantic
silently drops them, so the supplied booking URL never lands in the
record; moreover every synthesized check-in date is the loop date, so no
record predates today and validation passes. -/
theorem c10_direct_scraper_output (park : ParkEnum) (now today : Nat)
    (start_date end_date : PyDate) (hv : start_date.Valid)
    (htoday : today ≤ start_date.ordinal) :
    ∀ r ∈ scrape_park_availability park now start_date end_date,
      r.status = AvailabilityStatus.available ∧ r.url = none
        ∧ today ≤ r.check_in_date := by
  intro r hr
  have h := scrapeLoop_mem_spec park now end_date.ordinal
    (end_date.ordinal + 1 - start_date.ordinal) start_date hv r hr
  exact ⟨h.1, h.2.1, le_trans htoday h.2.2⟩

/-- **C10** witness: scraping Carlsbad for the week of 2024-02-26 from
today = 2024-02-26 (ordinal 738942); the record synthesized for Monday
2024-02-26 is available, has no URL, and is not in the past. -/
theorem c10_direct_scraper_witness :
    (PyDate.mk 2024 2 26).Valid
    ∧ (carlsbadSite 0 (PyDate.mk 2024 2 26)).status = AvailabilityStatus.available
      ∧ (carlsbadSite 0 (PyDate.mk 2024 2 26)).url = none
      ∧ 738942 ≤ (carlsbadSite 0 (PyDate.mk 2024 2 26)).check_in_date := by
  refine ⟨by decide, ?_⟩
  exact c10_direct_scraper_output ParkEnum.carlsbad 0 738942
    (PyDate.mk 2024 2 26) (PyDate.mk 2024 3 3) (by decide) (by decide)
    (carlsbadSite 0 (PyDate.mk 2024 2 26)) (by decide)

/-! ## Claim theorems: calendar month generation -/

theorem calendar_foldl_spec (year month : Nat) (avail : List CampsiteAvailability) :
    ∀ (l : List Nat) (acc : List CalendarDayData × Nat × Nat),
      (l.foldl (fun (acc : List CalendarDayData × Nat × Nat) i =>
          let day_data := buildCalendarDay year month avail (i + 1)
          (acc.1 ++ [day_data], acc.2.1 + day_data.available_count,
           if day_data.weekend then acc.2.2 + day_data.available_count else acc.2.2))
        acc)
      = (acc.1 ++ l.map (fun i => buildCalendarDay year month avail (i + 1)),
         acc.2.1 + (l.map (fun i =>
           (buildCalendarDay year month avail (i + 1)).available_count)).sum,
         acc.2.2 + ((l.filter (fun i =>
             (buildCalendarDay year month avail (i + 1)).weekend)).map (fun i =>
           (buildCalendarDay year month avail (i + 1)).available_count)).sum)
  | [], acc => by simp
  | i :: rest, acc => by
    rw [List.foldl_cons, calendar_foldl_spec year month avail rest]
    simp only [List.map_cons, List.sum_cons, List.filter_cons]
    cases hw : (buildCalendarDay year month avail (i + 1)).weekend <;>
      simp only [hw, Bool.false_eq_true, Bool.true_eq_false, if_true, if_false,
        List.map_cons, List.sum_cons, Prod.mk.injEq, ite_true, ite_false] <;>
      refine ⟨by simp, by omega, by first | trivial | omega⟩

/-- **C8**: for every (year, month) the calendar generator produces exactly
`monthrange`'s leap-aware count of day entries (29 for a leap-year
February); a day's weekend flag is set exactly when the weekday is
Saturday or Sunday (the strict predicate), its `available_count` counts
that day's available-status entries, its `total_sites` counts all of that
day's entries, and the month totals are the sums of available counts over
all days and over weekend days. -/
theorem c8_calendar_month (year month : Nat) (parksReq : List ParkEnum)
    (avail : List CampsiteAvailability) (hm1 : 1 ≤ month) (hm2 : month ≤ 12) :
    ((generate_calendar_data year month parksReq avail).days.length
        = daysInMonth year month)
    ∧ (isLeap year = true → daysInMonth year 2 = 29)
    ∧ (∀ i, (hi : i < (generate_calendar_data year month parksReq avail).days.length) →
        ((generate_calendar_data year month parksReq avail).days.get ⟨i, hi⟩
            = buildCalendarDay year month avail (i + 1))
        ∧ (((generate_calendar_data year month parksReq avail).days.get ⟨i, hi⟩).weekend
              = true
            ↔ (pyWeekday (dateOrdinal year month (i + 1)) = 5
               ∨ pyWeekday (dateOrdinal year month (i + 1)) = 6))
        ∧ (((generate_calendar_data year month parksReq avail).days.get
              ⟨i, hi⟩).available_count
            = (avail.filter (fun a =>
                decide (a.check_in_date = dateOrdinal year month (i + 1)
                  ∧ a.status = AvailabilityStatus.available))).length)
        ∧ (((generate_calendar_data year month parksReq avail).days.get
              ⟨i, hi⟩).total_sites
            = (avail.filter (fun a =>
                decide (a.check_in_date = dateOrdinal year month (i + 1)))).length))
    ∧ ((generate_calendar_data year month parksReq avail).total_available
        = ((generate_calendar_data year month parksReq avail).days.map
            (fun d => d.available_count)).sum)
    ∧ ((generate_calendar_data year month parksReq avail).weekend_available
        = (((generate_calendar_data year month parksReq avail).days.filter
            (fun d => d.weekend)).map (fun d => d.available_count)).sum) := by
  have hfold := calendar_foldl_spec year month avail
    (List.range (daysInMonth year month)) ([], 0, 0)
  have hgen : generate_calendar_data year month parksReq avail =
      { year := year
        month := month
        days := (List.range (daysInMonth year month)).map
          (fun i => buildCalendarDay year month avail (i + 1))
        parks := parksReq
        total_available := ((List.range (daysInMonth year month)).map (fun i =>
          (buildCalendarDay year month avail (i + 1)).available_count)).sum
        weekend_available := (((List.range (daysInMonth year month)).filter (fun i =>
            (buildCalendarDay year month avail (i + 1)).weekend)).map (fun i =>
          (buildCalendarDay year month avail (i + 1)).available_count)).sum } := by
    unfold generate_calendar_data
    dsimp only
    rw [hfold]
    simp
  rw [hgen]
  refine ⟨by simp, ?_, ?_, ?_, ?_⟩
  · intro h
    simp [daysInMonth, h]
  · intro i hi
    have hget : ((List.range (daysInMonth year month)).map
        (fun i => buildCalendarDay year month avail (i + 1))).get
          ⟨i, by simpa using hi⟩
        = buildCalendarDay year month avail (i + 1) := by
      simp
    simp only [hget]
    refine ⟨by trivial, ?_, ?_, ?_⟩
    · show (decide (5 ≤ pyWeekday (dateOrdinal year month (i + 1))) = true ↔ _)
      have := pyWeekday_lt (dateOrdinal year month (i + 1))
      simp only [decide_eq_true_eq]
      omega
    · show (avail.filter (fun a =>
          a.check_in_date == dateOrdinal year month (i + 1)
            && a.status == AvailabilityStatus.available)).length = _
      congr 1
      refine List.filter_congr ?_
      intro a _
      by_cases h1 : a.check_in_date = dateOrdinal year month (i + 1) <;>
        by_cases h2 : a.status = AvailabilityStatus.available <;>
        simp [h1, h2]
    · show (avail.filter (fun a =>
          a.check_in_date == dateOrdinal year month (i + 1))).length = _
      congr 1
  · simp only [List.map_map]
    rfl
  · rw [List.filter_map, List.map_map]
    rfl

/-- **C8** witness: February 2024 — a leap year — on the empty availability
set: 29 day entries, with the month totals given by the theorem. -/
theorem c8_calendar_witness :
    (1 ≤ 2 ∧ 2 ≤ 12)
    ∧ (generate_calendar_data 2024 2 [ParkEnum.carlsbad] []).days.length
        = daysInMonth 2024 2
    ∧ daysInMonth 2024 2 = 29 := by
  exact ⟨⟨by decide, by decide⟩,
    (c8_calendar_month 2024 2 [ParkEnum.carlsbad] [] (by decide) (by decide)).1,
    by decide⟩

/-! ## Claim theorems: notification batching and chunking -/

theorem chunksOfFuel_length (n : Nat) (hn : 0 < n) :
    ∀ (fuel : Nat) (l : List α), l.length ≤ fuel →
      (chunksOfFuel n fuel l).length = (l.length + n - 1) / n
  | 0, l, h => by
    have hl : l = [] := List.eq_nil_of_length_eq_zero (by omega)
    subst hl
    have h2 : (n - 1) / n = 0 := Nat.div_eq_of_lt (by omega)
    simp [chunksOfFuel, h2]
  | fuel + 1, [], h => by
    have h2 : (n - 1) / n = 0 := Nat.div_eq_of_lt (by omega)
    simp [chunksOfFuel, h2]
  | fuel + 1, x :: xs, h => by
    rw [chunksOfFuel, if_neg (by omega : ¬ n = 0)]
    simp only [List.length_cons] at h
    simp only [List.length_cons]
    rw [chunksOfFuel_length n hn fuel ((x :: xs).drop n)
      (by simp only [List.length_drop, List.length_cons]; omega)]
    simp only [List.length_drop, List.length_cons]
    by_cases hm : xs.length + 1 ≤ n
    · have e1 : xs.length + 1 - n = 0 := by omega
      rw [e1]
      have e2 : (0 + n - 1) / n = 0 := Nat.div_eq_of_lt (by omega)
      have e3 : (xs.length + 1 + n - 1) / n = 1 :=
        Nat.div_eq_of_lt_le (by omega) (by omega)
      rw [e2, e3]
    · have e1 : xs.length + 1 - n + n - 1 = xs.length := by omega
      have e2 : xs.length + 1 + n - 1 = xs.length + n := by omega
      rw [e1, e2, Nat.add_div_right _ hn]

theorem chunksOf_length (n : Nat) (hn : 0 < n) (l : List α) :
    (chunksOf n l).length = (l.length + n - 1) / n :=
  chunksOfFuel_length n hn l.length l (le_refl _)

theorem chunksOfFuel_map_length (n : Nat) (hn : 0 < n) :
    ∀ (fuel : Nat) (l : List α), (chunksOfFuel n fuel l).map List.length
      = chunkLens n fuel l.length
  | 0, l => by simp [chunksOfFuel, chunkLens]
  | fuel + 1, [] => by simp [chunksOfFuel, chunkLens]
  | fuel + 1, x :: xs => by
    rw [chunksOfFuel, if_neg (by omega : ¬ n = 0)]
    show List.length ((x :: xs).take n) ::
        (chunksOfFuel n fuel ((x :: xs).drop n)).map List.length = _
    rw [chunksOfFuel_map_length n hn fuel ((x :: xs).drop n)]
    have hlen : chunkLens n (fuel + 1) (x :: xs).length
        = min n (x :: xs).length :: chunkLens n fuel ((x :: xs).length - n) := by
      have hxl : (x :: xs).length = xs.length + 1 := by simp
      rw [hxl, chunkLens]
      omega
    rw [hlen, List.length_take, List.length_drop]

theorem chunksOf_map_length (n : Nat) (hn : 0 < n) (l : List α) :
    (chunksOf n l).map List.length = chunkLens n l.length l.length :=
  chunksOfFuel_map_length n hn l.length l

theorem addToGroup_same (p : ParkEnum) (acc : List CampsiteAvailability)
    (s : CampsiteAvailability) (hs : s.park = p) :
    addToGroup [(p, acc)] s = [(p, acc ++ [s])] := by
  simp [addToGroup, hs]

theorem groupByPark_single_aux (p : ParkEnum) :
    ∀ (l : List CampsiteAvailability) (acc : List CampsiteAvailability),
      (∀ s ∈ l, s.park = p) →
      l.foldl addToGroup [(p, acc)] = [(p, acc ++ l)]
  | [], acc, _ => by simp
  | s :: rest, acc, h => by
    rw [List.foldl_cons, addToGroup_same p acc s (h s (by simp))]
    rw [groupByPark_single_aux p rest (acc ++ [s]) (fun x hx => h x (by simp [hx]))]
    simp

theorem groupByPark_single (p : ParkEnum) (sites : List CampsiteAvailability)
    (hne : sites ≠ []) (hall : ∀ s ∈ sites, s.park = p) :
    groupByPark sites = [(p, sites)] := by
  cases sites with
  | nil => exact absurd rfl hne
  | cons s rest =>
    unfold groupByPark
    rw [List.foldl_cons]
    have h0 : addToGroup [] s = [(s.park, [s])] := rfl
    rw [h0, hall s (by simp)]
    rw [groupByPark_single_aux p rest [s] (fun x hx => hall x (by simp [hx]))]
    simp

theorem processChunk_step (env : AlertEnv) (rule : AlertRule)
    (acc : AlertProcessorState × Nat) (c : List CampsiteAvailability) :
    (processChunk env rule acc c).1.notification_batch.length
      = acc.1.notification_batch.length + 1
    ∧ (processChunk env rule acc c).2 = acc.2
        + (if (send_availability_alert env rule c).status == NotificationStatus.sent
           then 1 else 0) := by
  unfold processChunk
  by_cases h : (send_availability_alert env rule c).status == NotificationStatus.sent <;>
    simp [h]

theorem processChunk_foldl_spec (env : AlertEnv) (rule : AlertRule) :
    ∀ (cs : List (List CampsiteAvailability)) (acc : AlertProcessorState × Nat),
      ((cs.foldl (processChunk env rule) acc).1.notification_batch.length
        = acc.1.notification_batch.length + cs.length)
      ∧ ((cs.foldl (processChunk env rule) acc).2
        = acc.2 + cs.countP (fun c =>
            (send_availability_alert env rule c).status == NotificationStatus.sent))
  | [], acc => by simp
  | c :: rest, acc => by
    rw [List.foldl_cons]
    have ih := processChunk_foldl_spec env rule rest (processChunk env rule acc c)
    have hs := processChunk_step env rule acc c
    refine ⟨?_, ?_⟩
    · rw [ih.1, hs.1, List.length_cons]
      omega
    · rw [ih.2, hs.2, List.countP_cons]
      omega

theorem sendGroups_foldl_spec (env : AlertEnv) (rule : AlertRule) :
    ∀ (gs : List (ParkEnum × List CampsiteAvailability))
      (acc : AlertProcessorState × Nat),
      ((gs.foldl (fun a g => (chunksOf 10 g.2).foldl (processChunk env rule) a)
          acc).1.notification_batch.length
        = acc.1.notification_batch.length
          + (gs.map (fun g => (chunksOf 10 g.2).length)).sum)
      ∧ ((gs.foldl (fun a g => (chunksOf 10 g.2).foldl (processChunk env rule) a)
          acc).2
        = acc.2 + (gs.map (fun g => (chunksOf 10 g.2).countP (fun c =>
            (send_availability_alert env rule c).status
              == NotificationStatus.sent))).sum)
  | [], acc => by simp
  | g :: rest, acc => by
    rw [List.foldl_cons]
    have ih := sendGroups_foldl_spec env rule rest
      ((chunksOf 10 g.2).foldl (processChunk env rule) acc)
    have hc := processChunk_foldl_spec env rule (chunksOf 10 g.2) acc
    refine ⟨?_, ?_⟩
    · rw [ih.1, hc.1, List.map_cons, List.sum_cons]
      omega
    · rw [ih.2, hc.2, List.map_cons, List.sum_cons]
      omega

theorem nat_sum_pos_iff (l : List Nat) : 0 < l.sum ↔ ∃ x ∈ l, 0 < x := by
  induction l with
  | nil => simp
  | cons a t ih =>
    rw [List.sum_cons]
    constructor
    · intro h
      by_cases ha : 0 < a
      · exact ⟨a, by simp, ha⟩
      · have ht : 0 < t.sum := by omega
        rcases ih.mp ht with ⟨x, hx, hxp⟩
        exact ⟨x, by simp [hx], hxp⟩
    · rintro ⟨x, hx, hxp⟩
      rcases List.mem_cons.mp hx with rfl | hx2
      · omega
      · have := ih.mpr ⟨x, hx2, hxp⟩
        omega

/-- **C6**: `send_alert_notification` groups the matched sites by park and
splits each park's sites into chunks of at most 10, sending one email and
appending exactly one notification record per chunk: the pending batch
grows by the sum over parks of ⌈group size / 10⌉ records; 23 sites of one
park produce exactly 3 attempts with chunk sizes 10, 10, 3; and the call
returns true exactly when at least one chunk's email was sent
successfully. -/
theorem c6_chunked_notifications (env : AlertEnv) (rule : AlertRule)
    (matching_sites : List CampsiteAvailability) (st : AlertProcessorState) :
    ((send_alert_notification env rule matching_sites st).1.notification_batch.length
      = st.notification_batch.length
        + ((groupByPark matching_sites).map (fun g => (g.2.length + 9) / 10)).sum)
    ∧ (∀ g ∈ groupByPark matching_sites, ∀ c ∈ chunksOf 10 g.2, c.length ≤ 10)
    ∧ ((send_alert_notification env rule matching_sites st).2 = true ↔
        ∃ g ∈ groupByPark matching_sites, ∃ c ∈ chunksOf 10 g.2,
          (send_availability_alert env rule c).status = NotificationStatus.sent)
    ∧ (∀ p, (∀ s ∈ matching_sites, s.park = p) → matching_sites ≠ [] →
        matching_sites.length = 23 →
        ((send_alert_notification env rule matching_sites st).1.notification_batch.length
            = st.notification_batch.length + 3
          ∧ (chunksOf 10 matching_sites).map List.length = [10, 10, 3])) := by
  have hfold := sendGroups_foldl_spec env rule (groupByPark matching_sites) (st, 0)
  have hcount : (send_alert_notification env rule matching_sites
      st).1.notification_batch.length
      = st.notification_batch.length
        + ((groupByPark matching_sites).map
            (fun g => (chunksOf 10 g.2).length)).sum := by
    unfold send_alert_notification
    exact hfold.1
  refine ⟨?_, ?_, ?_, ?_⟩
  · rw [hcount]
    have hmc : (groupByPark matching_sites).map (fun g => (chunksOf 10 g.2).length)
        = (groupByPark matching_sites).map (fun g => (g.2.length + 9) / 10) := by
      refine List.map_congr_left ?_
      intro g _
      rw [chunksOf_length 10 (by norm_num) g.2]
      omega
    rw [hmc]
  · intro g _ c hc
    exact mem_chunksOf_length_le 10 g.2 c hc
  · have hret : (send_alert_notification env rule matching_sites st).2
        = decide (0 < ((groupByPark matching_sites).map
            (fun g => (chunksOf 10 g.2).countP (fun c =>
              (send_availability_alert env rule c).status
                == NotificationStatus.sent))).sum) := by
      unfold send_alert_notification
      dsimp only
      rw [hfold.2]
      simp
    rw [hret]
    simp only [decide_eq_true_eq]
    rw [nat_sum_pos_iff]
    constructor
    · rintro ⟨x, hx, hxp⟩
      rcases List.mem_map.mp hx with ⟨g, hg, rfl⟩
      rcases List.countP_pos_iff.mp hxp with ⟨c, hc, hcp⟩
      exact ⟨g, hg, c, hc, by simpa using hcp⟩
    · rintro ⟨g, hg, c, hc, hcp⟩
      refine ⟨(chunksOf 10 g.2).countP (fun c =>
          (send_availability_alert env rule c).status == NotificationStatus.sent),
        List.mem_map.mpr ⟨g, hg, rfl⟩, ?_⟩
      exact List.countP_pos_iff.mpr ⟨c, hc, by simpa using hcp⟩
  · intro p hall hne hlen
    have hg := groupByPark_single p matching_sites hne hall
    constructor
    · rw [hcount, hg]
      simp [hlen]
      rw [chunksOf_length 10 (by norm_num) matching_sites, hlen]
    · rw [chunksOf_map_length 10 (by norm_num) matching_sites, hlen]
      decide

/-- **C6** witness: 23 identical Carlsbad sites under the retention
environment's rule: the batch grows by 3 records, the chunk sizes are
10, 10, 3, and the alert reports success since the environment's SMTP
relay accepts every send. -/
theorem c6_chunked_notifications_witness :
    ((∀ s ∈ List.replicate 23 pricedSite, s.park = ParkEnum.carlsbad)
      ∧ List.replicate 23 pricedSite ≠ []
      ∧ (List.replicate 23 pricedSite).length = 23)
    ∧ ((send_alert_notification retentionEnv retentionRule
          (List.replicate 23 pricedSite)
          initialAlertProcessorState).1.notification_batch.length
        = initialAlertProcessorState.notification_batch.length + 3
      ∧ (chunksOf 10 (List.replicate 23 pricedSite)).map List.length = [10, 10, 3]) := by
  refine ⟨⟨?_, by decide, by decide⟩, ?_⟩
  · intro s hs
    rw [List.eq_of_mem_replicate hs]
    rfl
  · refine (c6_chunked_notifications retentionEnv retentionRule
      (List.replicate 23 pricedSite) initialAlertProcessorState).2.2.2
      ParkEnum.carlsbad ?_ (by decide) (by decide)
    intro s hs
    rw [List.eq_of_mem_replicate hs]
    rfl

/-! ## Claim theorems: alert-rule matching -/

theorem consecutiveLoop_iff (min_nights : Nat) :
    ∀ (l : List CampsiteAvailability) (count current : Nat),
      l.Pairwise leDate →
      (consecutiveLoop min_nights l count current = true ↔
        (min_nights ≤ count
          ∨ ∀ k, k < min_nights - count → ∃ a ∈ l, a.check_in_date = current + k))
  | [], count, current, _ => by
    rw [consecutiveLoop]
    simp only [decide_eq_true_eq]
    constructor
    · intro h
      exact Or.inl h
    · intro h
      rcases h with h | h
      · exact h
      · by_contra hc
        have h0 : 0 < min_nights - count := by omega
        rcases h 0 h0 with ⟨a, ha, _⟩
        simp at ha
  | a :: rest, count, current, hp => by
    have hpr : rest.Pairwise leDate := (List.pairwise_cons.mp hp).2
    have hmin : ∀ b ∈ rest, leDate a b := (List.pairwise_cons.mp hp).1
    rw [consecutiveLoop]
    by_cases he : a.check_in_date = current
    · rw [if_pos he]
      by_cases hm : min_nights ≤ count + 1
      · rw [if_pos hm]
        constructor
        · intro _
          by_cases hc : min_nights ≤ count
          · exact Or.inl hc
          · right
            intro k hk
            have hk0 : k = 0 := by omega
            subst hk0
            exact ⟨a, by simp, by omega⟩
        · intro _
          rfl
      · rw [if_neg hm]
        rw [consecutiveLoop_iff min_nights rest (count + 1) (current + 1) hpr]
        constructor
        · intro h
          rcases h with h | h
          · exact absurd h hm
          · right
            intro k hk
            cases k with
            | zero => exact ⟨a, by simp, by omega⟩
            | succ j =>
              rcases h j (by omega) with ⟨b, hb, hbd⟩
              exact ⟨b, by simp [hb], by omega⟩
        · intro h
          rcases h with h | h
          · exact absurd h (by omega)
          · right
            intro k hk
            rcases h (k + 1) (by omega) with ⟨b, hb, hbd⟩
            rcases List.mem_cons.mp hb with rfl | hb2
            · exfalso
              omega
            · exact ⟨b, hb2, by omega⟩
    · rw [if_neg he]
      by_cases hgt : current < a.check_in_date
      · rw [if_pos hgt]
        simp only [decide_eq_true_eq]
        constructor
        · intro h
          exact Or.inl h
        · intro h
          rcases h with h | h
          · exact h
          · by_contra hc
            have h0 : 0 < min_nights - count := by omega
            rcases h 0 h0 with ⟨b, hb, hbd⟩
            rcases List.mem_cons.mp hb with rfl | hb2
            · omega
            · have hab := hmin b hb2
              unfold leDate at hab
              omega
      · rw [if_neg hgt]
        rw [consecutiveLoop_iff min_nights rest count current hpr]
        have hlt : a.check_in_date < current := by omega
        constructor
        · intro h
          rcases h with h | h
          · exact Or.inl h
          · right
            intro k hk
            rcases h k hk with ⟨b, hb, hbd⟩
            exact ⟨b, by simp [hb], hbd⟩
        · intro h
          rcases h with h | h
          · exact Or.inl h
          · right
            intro k hk
            rcases h k hk with ⟨b, hb, hbd⟩
            rcases List.mem_cons.mp hb with rfl | hb2
            · exfalso
              omega
            · exact ⟨b, hb2, hbd⟩

theorem check_consecutive_nights_iff (site : CampsiteAvailability)
    (all : List CampsiteAvailability) (min_nights : Nat) (hmn : 0 < min_nights) :
    (check_consecutive_nights site all min_nights = true ↔
      ConsecutiveRunSpec site all min_nights) := by
  unfold check_consecutive_nights
  dsimp only
  have hsorted : (List.insertionSort leDate (all.filter (fun a =>
      a.park == site.park && a.site_id == site.site_id
        && a.status == AvailabilityStatus.available))).Pairwise leDate :=
    List.sorted_insertionSort leDate _
  rw [consecutiveLoop_iff min_nights _ 0 site.check_in_date hsorted]
  have hmem : ∀ b : CampsiteAvailability,
      b ∈ List.insertionSort leDate (all.filter (fun a =>
        a.park == site.park && a.site_id == site.site_id
          && a.status == AvailabilityStatus.available)) ↔
      (b ∈ all ∧ b.park = site.park ∧ b.site_id = site.site_id
        ∧ b.status = AvailabilityStatus.available) := by
    intro b
    rw [List.mem_insertionSort, List.mem_filter]
    simp [and_assoc]
  constructor
  · intro h
    rcases h with h | h
    · exact absurd h (by omega)
    · intro k hk
      rcases h k (by omega) with ⟨b, hb, hbd⟩
      rcases (hmem b).mp hb with ⟨hball, hbp, hbs, hbst⟩
      exact ⟨b, hball, hbp, hbs, hbst, by omega⟩
  · intro h
    right
    intro k hk
    rcases h k (by omega) with ⟨b, hball, hbp, hbs, hbst, hbd⟩
    exact ⟨b, (hmem b).mpr ⟨hball, hbp, hbs, hbst⟩, by omega⟩

/-- **C1** amended: `_matches_alert_rule` holds exactly when all claim
conditions hold, with condition (d) weakened to the truthiness the code
implements — a rule max price of 0.0 is falsy in Python, so it imposes no
bound (and a record price of 0.0 skips the comparison, which changes
nothing for valid non-negative prices). -/
theorem c1_rule_match_amended (today : Nat) (rule : AlertRule)
    (site : CampsiteAvailability) (all : List CampsiteAvailability)
    (hstatus : site.status = AvailabilityStatus.available)
    (hmp : ∀ mp, rule.max_price = some mp → 0 ≤ mp)
    (hprice : ∀ p, site.price = some p → 0 ≤ p) :
    (matches_alert_rule today rule site all = true ↔
      RuleMatchAmended today rule site all) := by
  have hwk := pyWeekday_lt site.check_in_date
  unfold matches_alert_rule RuleMatchAmended
  split_ifs with h1 h2 h3 h4 h5 h6
  · simp only [Bool.false_eq_true, false_iff]
    rintro ⟨hmem, -⟩
    simp [hmem] at h1
  · simp only [Bool.false_eq_true, false_iff]
    rintro ⟨-, hmem, -⟩
    simp [hmem] at h2
  · simp only [Bool.false_eq_true, false_iff]
    rintro ⟨-, -, hwkd, -⟩
    simp only [Bool.and_eq_true] at h3
    rcases h3 with ⟨hwo, hnw⟩
    have h456 := hwkd hwo
    unfold is_weekend_date at hnw
    simp at hnw
    omega
  · simp only [Bool.false_eq_true, false_iff]
    rintro ⟨-, -, -, hpv, -⟩
    rcases hm : rule.max_price with _ | mp <;> rw [hm] at h4
    · simp at h4
    · rcases hp : site.price with _ | p <;> rw [hp] at h4
      · simp at h4
      · simp at h4
        rcases h4 with ⟨⟨hmp0, hp0⟩, hlt⟩
        have hle := hpv mp p hm hmp0 hp
        exact absurd hle (not_le.mpr hlt)
  · simp only [Bool.false_eq_true, false_iff]
    rintro ⟨-, -, -, -, hadv, -⟩
    simp only [decide_eq_true_eq] at h5
    omega
  · -- all guards passed, min_nights > 1: iff with the consecutive check
    have hA : site.park ∈ rule.parks := by
      by_contra hc
      apply h1
      simp [hc]
    have hB : site.site_type ∈ rule.site_types := by
      by_contra hc
      apply h2
      simp [hc]
    have hC : rule.weekend_only = true →
        (pyWeekday site.check_in_date = 4 ∨ pyWeekday site.check_in_date = 5
          ∨ pyWeekday site.check_in_date = 6) := by
      intro hwo
      have hwd : is_weekend_date site.check_in_date = true := by
        by_contra hfalse
        apply h3
        rw [hwo]
        simp only [Bool.not_eq_true] at hfalse
        simp [hfalse]
      unfold is_weekend_date at hwd
      simp only [decide_eq_true_eq] at hwd
      omega
    have hD : ∀ mp p, rule.max_price = some mp → mp ≠ 0 →
        site.price = some p → p ≤ mp := by
      intro mp p hme hm0 hpe
      by_cases hp0 : p = 0
      · subst hp0
        exact hmp mp hme
      · by_contra hlt
        apply h4
        rw [hme, hpe]
        have hlt2 : mp < p := not_le.mp hlt
        simp [hm0, hp0, hlt2]
    have hE : (rule.advance_notice_days : Int)
        ≤ (site.check_in_date : Int) - (today : Int) := by
      simp only [decide_eq_true_eq] at h5
      omega
    rw [check_consecutive_nights_iff site all rule.min_nights (by omega)]
    constructor
    · intro hrun
      exact ⟨hA, hB, hC, hD, hE, fun _ => hrun⟩
    · rintro ⟨-, -, -, -, -, hrun⟩
      exact hrun h6
  · -- all guards passed, min_nights = 1: always a match
    have hA : site.park ∈ rule.parks := by
      by_contra hc
      apply h1
      simp [hc]
    have hB : site.site_type ∈ rule.site_types := by
      by_contra hc
      apply h2
      simp [hc]
    have hC : rule.weekend_only = true →
        (pyWeekday site.check_in_date = 4 ∨ pyWeekday site.check_in_date = 5
          ∨ pyWeekday site.check_in_date = 6) := by
      intro hwo
      have hwd : is_weekend_date site.check_in_date = true := by
        by_contra hfalse
        apply h3
        rw [hwo]
        simp only [Bool.not_eq_true] at hfalse
        simp [hfalse]
      unfold is_weekend_date at hwd
      simp only [decide_eq_true_eq] at hwd
      omega
    have hD : ∀ mp p, rule.max_price = some mp → mp ≠ 0 →
        site.price = some p → p ≤ mp := by
      intro mp p hme hm0 hpe
      by_cases hp0 : p = 0
      · subst hp0
        exact hmp mp hme
      · by_contra hlt
        apply h4
        rw [hme, hpe]
        have hlt2 : mp < p := not_le.mp hlt
        simp [hm0, hp0, hlt2]
    have hE : (rule.advance_notice_days : Int)
        ≤ (site.check_in_date : Int) - (today : Int) := by
      simp only [decide_eq_true_eq] at h5
      omega
    constructor
    · intro _
      exact ⟨hA, hB, hC, hD, hE, fun hmn => absurd hmn h6⟩
    · intro _
      rfl

/-- **C1** counterexample: with a valid alert rule whose max price is the
falsy 0.0 and an available $50 Carlsbad RV site satisfying every other
condition, the code's predicate matches (Python truthiness skips the price
comparison) while the claim's condition (d) demands 50 ≤ 0 — so the
claimed equivalence is false at this input. -/
theorem c1_claim_counterexample :
    matches_alert_rule 0 zeroPriceRule pricedSite [pricedSite] = true
    ∧ pricedSite.status = AvailabilityStatus.available
    ∧ validAlertRule zeroPriceRule = true
    ∧ ¬ RuleMatchClaim 0 zeroPriceRule pricedSite [pricedSite] := by
  refine ⟨by decide, by decide, by decide, ?_⟩
  rintro ⟨-, -, -, hpv, -⟩
  have h50 := hpv 0 50 rfl rfl
  norm_num at h50

/-- **C1** witness: the amended equivalence applied to the zero-max-price
rule, the $50 site and that site as the whole availability batch, with the
status and price-validity hypotheses discharged concretely. -/
theorem c1_rule_match_witness :
    (pricedSite.status = AvailabilityStatus.available
      ∧ (0 : ℚ) ≤ 0 ∧ (0 : ℚ) ≤ 50)
    ∧ (matches_alert_rule 0 zeroPriceRule pricedSite [pricedSite] = true ↔
        RuleMatchAmended 0 zeroPriceRule pricedSite [pricedSite]) := by
  have hmpw : ∀ mp : ℚ, zeroPriceRule.max_price = some mp → 0 ≤ mp := by
    intro mp hmp
    have h0 : (some (0 : ℚ)) = some mp := hmp
    rw [Option.some_inj] at h0
    rw [← h0]
  have hpw : ∀ p : ℚ, pricedSite.price = some p → 0 ≤ p := by
    intro p hp
    have h0 : (some (50 : ℚ)) = some p := hp
    rw [Option.some_inj] at h0
    rw [← h0]
    norm_num
  exact ⟨⟨by decide, le_refl 0, by norm_num⟩,
    c1_rule_match_amended 0 zeroPriceRule pricedSite [pricedSite] (by decide) hmpw hpw⟩
